import Mathlib

/-!
Verification of the ovsdb client library: a shallow embedding of the JSON
framer (`JsonCodec::decode`), the protocol adapter (`Sender::send`,
`Receiver::receive`), the OVSDB value codec (`OvsdbSerializable` impls,
`json_to_ovsdb_value`, `extract_uuid`) and the derive-macro record glue
(`to_map` / `from_map`), together with theorems settling the spec's claims.
-/

set_option maxRecDepth 4000

/-- Model of `serde_json::Value`.  Numbers are split into those `serde_json`
reports via `as_i64` (constructor `int`) and all other finite numbers
(constructor `real`, carried as a rational).  Objects are association lists
of key/value pairs; `serde_json`'s map keeps keys unique. -/
inductive Json where
  | null : Json
  | bool (b : Bool) : Json
  | int (i : Int) : Json
  | real (q : ℚ) : Json
  | str (s : String) : Json
  | arr (elems : List Json) : Json
  | obj (fields : List (String × Json)) : Json

/-- Lookup of the first binding of a key in an association list
(`serde_json::Map::get`). -/
def lookupKey {α : Type} : List (String × α) → String → Option α
  | [], _ => none
  | (k, v) :: rest, key => if k = key then some v else lookupKey rest key

/-- Whether a key is present (`serde_json::Map::contains_key`). -/
def hasKey {α : Type} (l : List (String × α)) (key : String) : Bool :=
  (lookupKey l key).isSome

/-- Insert a binding, replacing the value of the first occurrence of the key
if present, appending otherwise (`serde_json::Map::insert`). -/
def insertKey {α : Type} : List (String × α) → String → α → List (String × α)
  | [], key, v => [(key, v)]
  | (k, w) :: rest, key, v =>
    if k = key then (key, v) :: rest else (k, w) :: insertKey rest key v

/-- Remove every binding of a key (`serde_json::Map::remove`; the source maps
have unique keys, for which this is removal of the unique binding). -/
def removeKey {α : Type} (l : List (String × α)) (key : String) : List (String × α) :=
  l.filter (fun p => p.1 ≠ key)

/-- Model of `serde_json`'s `Value::index` with a string key: on an object it
returns the value under the key or `Null` when absent; on every other value
it returns `Null`. -/
def jsonIdx (j : Json) (key : String) : Json :=
  match j with
  | .obj fields => (lookupKey fields key).getD .null
  | _ => .null

theorem insertKey_lookup_eq {α : Type} {l : List (String × α)} {key : String} {v : α}
    (h : lookupKey l key = some v) : insertKey l key v = l := by
  induction l with
  | nil => simp [lookupKey] at h
  | cons p rest ih =>
    obtain ⟨k, w⟩ := p
    by_cases hk : k = key
    · subst hk
      simp [lookupKey] at h
      simp [insertKey, h]
    · simp [lookupKey, hk] at h
      simp [insertKey, hk, ih h]

theorem removeKey_lookup_none {α : Type} {l : List (String × α)} {key : String}
    (h : lookupKey l key = none) : removeKey l key = l := by
  induction l with
  | nil => rfl
  | cons p rest ih =>
    obtain ⟨k, w⟩ := p
    by_cases hk : k = key
    · subst hk; simp [lookupKey] at h
    · simp [lookupKey, hk] at h
      simpa [removeKey, List.filter_cons, hk] using ih h

/-- Character class of hexadecimal digits. -/
def isHexDigit (c : Char) : Bool :=
  c.isDigit || ('a' ≤ c && c ≤ 'f') || ('A' ≤ c && c ≤ 'F')

/-- Canonical hyphenated UUID text: 36 characters, dashes at positions
8, 13, 18 and 23, hexadecimal digits elsewhere. -/
def isUuidFmt (s : String) : Bool :=
  s.data.length = 36 && (List.range 36).all fun i =>
    if i = 8 ∨ i = 13 ∨ i = 18 ∨ i = 23 then s.data.getD i ' ' = '-'
    else isHexDigit (s.data.getD i ' ')

/-- Model of the external `uuid` crate's `Uuid` (consumed as a utility by the
library): a UUID is carried by its canonical hyphenated textual form. -/
abbrev Uuid : Type := { s : String // isUuidFmt s = true }

/-- Model of `Uuid::parse_str` restricted to the canonical hyphenated form
emitted by `Uuid::to_string` (the only form the library produces). -/
def Uuid.parseStr (s : String) : Option Uuid :=
  if h : isUuidFmt s = true then some ⟨s, h⟩ else none

/-- Model of `Uuid::to_string`. -/
def Uuid.text (u : Uuid) : String := u.val

/-- `OvsdbAtom` from `schema/src/lib.rs`: the primitive OVSDB atom types.
`Real` carries a rational standing for a finite `f64`. -/
inductive OvsdbAtom where
  | String (s : String)
  | Integer (i : Int)
  | Real (q : ℚ)
  | Boolean (b : Bool)
  | Uuid (u : Uuid)
  | NamedUuid (n : String)
  deriving DecidableEq

/-- `OvsdbValue` from `schema/src/lib.rs`: atom, set, or map. -/
inductive OvsdbValue where
  | Atom (a : OvsdbAtom)
  | Set (atoms : List OvsdbAtom)
  | Map (pairs : List (OvsdbAtom × OvsdbAtom))
  deriving DecidableEq

/-- The Rust value types that implement `OvsdbSerializable` in
`schema/src/lib.rs`: `String`, `i64`, `f64`, `bool`, `Uuid`, `Option<T>`,
`Vec<T>` and `HashMap<K, V>`. -/
inductive ColTy where
  | str | int | real | bool | uuid
  | opt (t : ColTy)
  | seq (t : ColTy)
  | kvmap (k v : ColTy)
  deriving DecidableEq

/-- Runtime values of the types of `ColTy`.  A `kvmap` value stands for a
`HashMap` listed in some iteration order. -/
inductive RVal where
  | str (s : String)
  | int (i : Int)
  | real (q : ℚ)
  | bool (b : Bool)
  | uuid (u : Uuid)
  | opt (v : Option RVal)
  | seq (vs : List RVal)
  | kvmap (ps : List (RVal × RVal))

mutual

/-- Structural equality of runtime values (Rust `Eq`, used by `HashMap`
key lookup). -/
def RVal.beq : RVal → RVal → Bool
  | .str a, .str b => a == b
  | .int a, .int b => a == b
  | .real a, .real b => a == b
  | .bool a, .bool b => a == b
  | .uuid a, .uuid b => a == b
  | .opt none, .opt none => true
  | .opt (some a), .opt (some b) => RVal.beq a b
  | .seq a, .seq b => RVal.beqList a b
  | .kvmap a, .kvmap b => RVal.beqPairs a b
  | _, _ => false

/-- Element-wise equality of value lists. -/
def RVal.beqList : List RVal → List RVal → Bool
  | [], [] => true
  | x :: xs, y :: ys => RVal.beq x y && RVal.beqList xs ys
  | _, _ => false

/-- Element-wise equality of pair lists. -/
def RVal.beqPairs : List (RVal × RVal) → List (RVal × RVal) → Bool
  | [], [] => true
  | (k₁, v₁) :: xs, (k₂, v₂) :: ys =>
    RVal.beq k₁ k₂ && RVal.beq v₁ v₂ && RVal.beqPairs xs ys
  | _, _ => false

end

mutual

/-- Encoding of a runtime value to an `OvsdbValue`, following the
`OvsdbSerializable::to_ovsdb` implementations: scalars become atoms,
`None` becomes the empty set, `Some` encodes its payload, `Vec` collects
element atoms into a set (yielding `Set []` when any element encodes to a
non-atom), `HashMap` collects pairs of atoms into a map (yielding `Map []`
when any key or value encodes to a non-atom). -/
def to_ovsdb : RVal → OvsdbValue
  | .str s => .Atom (.String s)
  | .int i => .Atom (.Integer i)
  | .real q => .Atom (.Real q)
  | .bool b => .Atom (.Boolean b)
  | .uuid u => .Atom (.Uuid u)
  | .opt none => .Set []
  | .opt (some v) => to_ovsdb v
  | .seq vs =>
    match collectAtoms vs with
    | some atoms => .Set atoms
    | none => .Set []
  | .kvmap ps =>
    match collectPairs ps with
    | some pairs => .Map pairs
    | none => .Map []

/-- The element loop of `Vec::to_ovsdb`: every element must encode to an
atom, otherwise the whole conversion is abandoned. -/
def collectAtoms : List RVal → Option (List OvsdbAtom)
  | [] => some []
  | v :: vs =>
    match to_ovsdb v with
    | .Atom a => (collectAtoms vs).map (a :: ·)
    | _ => none

/-- The pair loop of `HashMap::to_ovsdb`: every key and value must encode
to an atom, otherwise the whole conversion is abandoned. -/
def collectPairs : List (RVal × RVal) → Option (List (OvsdbAtom × OvsdbAtom))
  | [] => some []
  | (k, v) :: ps =>
    match to_ovsdb k, to_ovsdb v with
    | .Atom ka, .Atom va => (collectPairs ps).map ((ka, va) :: ·)
    | _, _ => none

end

/-- `HashMap::insert` on the association-list view of a map: replace the
value of an existing equal key, append otherwise. -/
def insertAssoc : List (RVal × RVal) → RVal → RVal → List (RVal × RVal)
  | [], k, v => [(k, v)]
  | (k', v') :: rest, k, v =>
    if RVal.beq k' k then (k', v) :: rest else (k', v') :: insertAssoc rest k v

/-- Decoding of an `OvsdbValue` at a target type, following the
`OvsdbSerializable::from_ovsdb` implementations.  Scalar types accept
exactly their own atom kind; `Option<T>` delegates to `T` and wraps in
`Some`; `Vec<T>` accepts a set (element-wise) or a lone atom as a
one-element set; `HashMap<K, V>` accepts a map, converting keys and values
and inserting each pair. -/
def from_ovsdb : ColTy → OvsdbValue → Option RVal
  | .str, .Atom (.String s) => some (.str s)
  | .str, _ => none
  | .int, .Atom (.Integer i) => some (.int i)
  | .int, _ => none
  | .real, .Atom (.Real q) => some (.real q)
  | .real, _ => none
  | .bool, .Atom (.Boolean b) => some (.bool b)
  | .bool, _ => none
  | .uuid, .Atom (.Uuid u) => some (.uuid u)
  | .uuid, _ => none
  | .opt t, v => (from_ovsdb t v).map (fun x => .opt (some x))
  | .seq t, .Set atoms =>
    (atoms.mapM (fun a => from_ovsdb t (.Atom a))).map RVal.seq
  | .seq t, .Atom a =>
    (from_ovsdb t (.Atom a)).map (fun x => .seq [x])
  | .seq _, _ => none
  | .kvmap kt vt, .Map pairs =>
    (pairs.foldlM
      (fun acc (p : OvsdbAtom × OvsdbAtom) => do
        let k ← from_ovsdb kt (.Atom p.1)
        let v ← from_ovsdb vt (.Atom p.2)
        pure (insertAssoc acc k v))
      []).map RVal.kvmap
  | .kvmap _ _, _ => none

/-- Serialization of an `OvsdbAtom` to JSON (the `Serialize` impl for
`OvsdbAtom`): scalars inline; UUIDs and named UUIDs as their tagged
two-element arrays. -/
def atomToJson : OvsdbAtom → Json
  | .String s => .str s
  | .Integer i => .int i
  | .Real q => .real q
  | .Boolean b => .bool b
  | .Uuid u => .arr [.str "uuid", .str u.text]
  | .NamedUuid n => .arr [.str "named-uuid", .str n]

/-- Serialization of an `OvsdbValue` to JSON (the `Serialize` impl for
`OvsdbValue`): an empty set as `[]`, a one-element set as the bare atom,
larger sets as `["set", [...]]`, maps as `["map", [[k, v], ...]]`. -/
def ovsdbValueToJson : OvsdbValue → Json
  | .Atom a => atomToJson a
  | .Set [] => .arr []
  | .Set [a] => atomToJson a
  | .Set atoms => .arr [.str "set", .arr (atoms.map atomToJson)]
  | .Map pairs =>
    .arr [.str "map", .arr (pairs.map (fun p => .arr [atomToJson p.1, atomToJson p.2]))]

/-- `OvsdbSerializableExt::to_ovsdb_json`: encode then serialize.  In the
source `serde_json::to_value` can fail only on non-finite floats, which the
model's rationals do not contain, so the result is always `some`. -/
def to_ovsdb_json (v : RVal) : Option Json :=
  some (ovsdbValueToJson (to_ovsdb v))

mutual

/-- `json_to_ovsdb_value` from `schema/src/lib.rs`: strings, numbers and
booleans become atoms (`as_i64` first, `as_f64` otherwise); arrays are
examined for a recognized two-element tagged form, an unrecognized or
failed tagged form falling through to the empty-array check; `null` and
`[]` become the empty set; objects and everything else fail. -/
def json_to_ovsdb_value : Json → Option OvsdbValue
  | .str s => some (.Atom (.String s))
  | .int i => some (.Atom (.Integer i))
  | .real q => some (.Atom (.Real q))
  | .bool b => some (.Atom (.Boolean b))
  | .arr elems =>
    (match tryTagged elems with
     | some v => some v
     | none => if elems.isEmpty then some (.Set []) else none)
  | .null => some (.Set [])
  | .obj _ => none

/-- The recognized-tag branch of `json_to_ovsdb_value`: a two-element array
whose first element is one of the literal tags `"uuid"`, `"named-uuid"`,
`"set"`, `"map"`; `none` on any shape or conversion failure. -/
def tryTagged : List Json → Option OvsdbValue
  | [.str tag, snd] =>
    if tag = "uuid" then
      match snd with
      | .str s => (Uuid.parseStr s).map (fun u => .Atom (.Uuid u))
      | _ => none
    else if tag = "named-uuid" then
      match snd with
      | .str n => some (.Atom (.NamedUuid n))
      | _ => none
    else if tag = "set" then
      match snd with
      | .arr es => (atomsOf es).map OvsdbValue.Set
      | _ => none
    else if tag = "map" then
      match snd with
      | .arr prs => (pairsOf prs).map OvsdbValue.Map
      | _ => none
    else none
  | _ => none

/-- The element loop of the `"set"` branch: every element must convert to
an atom. -/
def atomsOf : List Json → Option (List OvsdbAtom)
  | [] => some []
  | e :: rest =>
    match json_to_ovsdb_value e with
    | some (.Atom a) => (atomsOf rest).map (a :: ·)
    | _ => none

/-- The pair loop of the `"map"` branch: every pair must be a two-element
array whose components convert to atoms. -/
def pairsOf : List Json → Option (List (OvsdbAtom × OvsdbAtom))
  | [] => some []
  | .arr [k, v] :: rest =>
    match json_to_ovsdb_value k, json_to_ovsdb_value v with
    | some (.Atom ka), some (.Atom va) => (pairsOf rest).map ((ka, va) :: ·)
    | _, _ => none
  | _ => none

end

/-- `OvsdbSerializableExt::from_ovsdb_json`: convert JSON to an
`OvsdbValue`, then decode at the target type. -/
def from_ovsdb_json (t : ColTy) (j : Json) : Option RVal :=
  (json_to_ovsdb_value j).bind (from_ovsdb t)

/-- `extract_uuid` from `schema/src/lib.rs`: accept exactly a two-element
array `["uuid", s]` with a parseable UUID string `s`. -/
def extract_uuid : Json → Option Uuid
  | .arr [.str tag, snd] =>
    if tag = "uuid" then
      match snd with
      | .str s => Uuid.parseStr s
      | _ => none
    else none
  | _ => none

/-- Rust `Default::default()` per field type, used by the generated `new()`
(empty string, zero, `false`, the nil UUID, `None`, empty `Vec`, empty
`HashMap`). -/
def defaultVal : ColTy → RVal
  | .str => .str ""
  | .int => .int 0
  | .real => .real 0
  | .bool => .bool false
  | .uuid => .uuid ⟨"00000000-0000-0000-0000-000000000000", by decide⟩
  | .opt _ => .opt none
  | .seq _ => .seq []
  | .kvmap _ _ => .kvmap []

/-- A record schema as fixed by the derive macro: the ordered list of
declared (field name, field type) pairs, the implicit `_uuid` and
`_version` fields excluded (the macro skips them when collecting field
names). -/
abbrev RecordTy : Type := List (String × ColTy)

/-- A record value: the declared field values in declaration order plus the
two implicit optional UUID fields. -/
structure RecordVal where
  fields : List RVal
  ruuid : Option Uuid
  rversion : Option Uuid

/-- The field loop of the generated `to_map`, over (declared field, value)
pairs, accumulating into the result map. -/
def toMapLoop : List ((String × ColTy) × RVal) → List (String × Json)
  | [] => []
  | ((name, _), v) :: rest =>
    match to_ovsdb_json v with
    | some j => insertKey (toMapLoop rest) name j
    | none => toMapLoop rest

/-- The generated `to_map`: for each declared field in order, serialize it
with `to_ovsdb_json` and insert the JSON under the field's name whenever
serialization returns `Some`.  The implicit `_uuid` and `_version` fields
are not visited (the macro excludes them from the field list). -/
def to_map (R : RecordTy) (r : RecordVal) : List (String × Json) :=
  toMapLoop (R.zip r.fields)

/-- The declared-field loop of the generated `from_map`: for each declared
field in order, a present map entry must decode via `from_ovsdb_json` (the
first failure aborts with an error naming the field), an absent entry
leaves the field at its `new()` default. -/
def fromMapLoop (m : List (String × Json)) : RecordTy → Except String (List RVal)
  | [] => .ok []
  | (name, t) :: R =>
    match lookupKey m name with
    | none =>
      match fromMapLoop m R with
      | .ok vs => .ok (defaultVal t :: vs)
      | .error e => .error e
    | some j =>
      match from_ovsdb_json t j with
      | some v =>
        match fromMapLoop m R with
        | .ok vs => .ok (v :: vs)
        | .error e => .error e
      | none => .error ("Failed to parse field " ++ name)

/-- The generated `from_map`: start from `new()`, set `_uuid` and
`_version` from a present entry when `extract_uuid` recognizes it (silently
leaving `None` otherwise), then decode each declared field present in the
map, failing on the first field that does not decode. -/
def from_map (R : RecordTy) (m : List (String × Json)) : Except String RecordVal :=
  match fromMapLoop m R with
  | .error e => .error e
  | .ok vs =>
    .ok { fields := vs
          ruuid := (lookupKey m "_uuid").bind extract_uuid
          rversion := (lookupKey m "_version").bind extract_uuid }

/-- The tail of `Sender::send` past the update-drop check: remove
`jsonrpc`, require an object (`as_object().unwrap()`), insert `params: []`
when absent, write the frame. -/
def Sender.sendRest (written : List Json) (msg : Json) : Option (List Json) :=
  let m1 := match msg with
    | .obj fields => Json.obj (removeKey fields "jsonrpc")
    | other => other
  match m1 with
  | .obj f1 =>
    let f2 := if hasKey f1 "params" then f1 else insertKey f1 "params" (Json.arr [])
    some (written ++ [Json.obj f2])
  | _ => none

/-- Model of `Sender::send` from `client/src/transports/mod.rs`, acting on
the parsed outbound frame.  The written-frames list stands for the bytes
handed to the inner sink; `none` models the `unwrap` panic reachable on a
non-object frame.  A frame whose `method` indexes to the string `"update"`
is dropped: success is returned and nothing is written.  Otherwise
`jsonrpc` is removed, `params: []` is inserted when absent, and the frame
is written. -/
def Sender.send (written : List Json) (msg : Json) : Option (List Json) :=
  match jsonIdx msg "method" with
  | .str s =>
    if s = "update" then some written else Sender.sendRest written msg
  | _ => Sender.sendRest written msg

/-- Model of the per-frame rewrite of `Receiver::receive` from
`client/src/transports/mod.rs`, acting on the parsed inbound frame:
insert `jsonrpc: "2.0"` (a no-op on non-objects), then — panicking on a
non-object frame (`as_object().unwrap()`, modelled by `none`) — remove
`error` when `result` is present and remove `id` when present and null;
the rewritten frame is returned re-serialized. -/
def Receiver.receive (msg : Json) : Option Json :=
  let m1 := match msg with
    | .obj fields => Json.obj (insertKey fields "jsonrpc" (Json.str "2.0"))
    | other => other
  match m1 with
  | .obj f1 =>
    let f2 := if hasKey f1 "result" then removeKey f1 "error" else f1
    let f3 :=
      if hasKey f2 "id" then
        match lookupKey f2 "id" with
        | some .null => removeKey f2 "id"
        | _ => f2
      else f2
    some (.obj f3)
  | _ => none

/-- Modelled from the spec: the inbound rewrite table of §4.3, applied to
an object frame's fields — always insert `jsonrpc: "2.0"`; if the frame
contains both `result` and `error`, remove `error`; if the frame contains
an `id` whose value is JSON null, remove `id`. -/
def specInboundRewrite (fields : List (String × Json)) : List (String × Json) :=
  let f1 := insertKey fields "jsonrpc" (Json.str "2.0")
  let f2 := if hasKey f1 "result" && hasKey f1 "error" then removeKey f1 "error" else f1
  match lookupKey f2 "id" with
  | some .null => removeKey f2 "id"
  | _ => f2

/-- Outcome of an incremental parse step: a value with the unconsumed
remainder, an unexpected end of input, or a syntax error. -/
inductive PRes (α : Type) where
  | ok (a : α) (rest : List Char)
  | eof
  | err

/-- JSON insignificant whitespace. -/
def isJsonWs (c : Char) : Bool :=
  c = ' ' || c = '\t' || c = '\n' || c = '\r'

/-- Drop leading JSON whitespace. -/
def skipWs : List Char → List Char
  | [] => []
  | c :: cs => if isJsonWs c then skipWs cs else c :: cs

/-- Match the remaining characters of a keyword literal. -/
def expectLit (pat : List Char) (v : Json) (s : List Char) : PRes Json :=
  match pat, s with
  | [], rest => .ok v rest
  | _ :: _, [] => .eof
  | p :: ps, c :: cs => if c = p then expectLit ps v cs else .err

/-- Split the longest prefix of decimal digits. -/
def digitsSpan : List Char → List Char × List Char
  | [] => ([], [])
  | c :: cs =>
    if c.isDigit then
      let (d, r) := digitsSpan cs
      (c :: d, r)
    else ([], c :: cs)

/-- Value of a string of decimal digits. -/
def digitsToNat (ds : List Char) : Nat :=
  ds.foldl (fun acc c => 10 * acc + (c.toNat - 48)) 0

/-- Value of one hexadecimal digit. -/
def hexVal (c : Char) : Option Nat :=
  if c.isDigit then some (c.toNat - 48)
  else if 'a' ≤ c && c ≤ 'f' then some (c.toNat - 87)
  else if 'A' ≤ c && c ≤ 'F' then some (c.toNat - 55)
  else none

/-- Exponent tail of a JSON number, after the `e`/`E`. -/
def parseExp (mant : ℚ) (r : List Char) : PRes Json :=
  let (esign, r1) : Int × List Char :=
    match r with
    | '+' :: cs => (1, cs)
    | '-' :: cs => (-1, cs)
    | _ => (1, r)
  match r1 with
  | [] => .eof
  | c :: _ =>
    if c.isDigit then
      let (es, r2) := digitsSpan r1
      .ok (.real (mant * (10 : ℚ) ^ (esign * (digitsToNat es : Int)))) r2
    else .err

/-- A JSON number (sign, integer part without redundant leading zeros,
optional fraction and exponent).  Plain integers in signed 64-bit range
are the numbers `serde_json` reports via `as_i64`; everything else falls
back to a float, modelled as a rational. -/
def parseNum (s : List Char) : PRes Json :=
  let (neg, s1) : Bool × List Char :=
    match s with
    | '-' :: cs => (true, cs)
    | _ => (false, s)
  match s1 with
  | [] => .eof
  | c :: _ =>
    if ¬ c.isDigit then .err
    else
      let (ds, r1) := digitsSpan s1
      if 1 < ds.length ∧ ds.headD ' ' = '0' then .err
      else
        let sn : Int := if neg then -(digitsToNat ds : Int) else (digitsToNat ds : Int)
        match r1 with
        | '.' :: r2 =>
          match r2 with
          | [] => .eof
          | d :: _ =>
            if ¬ d.isDigit then .err
            else
              let (fs, r3) := digitsSpan r2
              let frac : ℚ := (digitsToNat fs : ℚ) / (10 : ℚ) ^ fs.length
              let mant : ℚ := (sn : ℚ) + (if neg then -frac else frac)
              match r3 with
              | 'e' :: r4 => parseExp mant r4
              | 'E' :: r4 => parseExp mant r4
              | _ => .ok (.real mant) r3
        | 'e' :: r2 => parseExp (sn : ℚ) r2
        | 'E' :: r2 => parseExp (sn : ℚ) r2
        | _ =>
          if -(2 ^ 63) ≤ sn ∧ sn < 2 ^ 63 then .ok (.int sn) r1
          else .ok (.real (sn : ℚ)) r1

/-- Body of a JSON string after the opening quote: plain characters,
escape sequences, and `\u` hexadecimal escapes; unescaped control
characters are rejected; end of input before the closing quote is an
end-of-input condition. -/
def parseStrBody (fuel : Nat) (acc : List Char) (s : List Char) : PRes String :=
  match fuel with
  | 0 => .err
  | fuel + 1 =>
    match s with
    | [] => .eof
    | c :: cs =>
      if c = '"' then .ok (String.mk acc.reverse) cs
      else if c = '\\' then
        match cs with
        | [] => .eof
        | e :: cs' =>
          if e = '"' then parseStrBody fuel ('"' :: acc) cs'
          else if e = '\\' then parseStrBody fuel ('\\' :: acc) cs'
          else if e = '/' then parseStrBody fuel ('/' :: acc) cs'
          else if e = 'b' then parseStrBody fuel (Char.ofNat 8 :: acc) cs'
          else if e = 'f' then parseStrBody fuel (Char.ofNat 12 :: acc) cs'
          else if e = 'n' then parseStrBody fuel ('\n' :: acc) cs'
          else if e = 'r' then parseStrBody fuel ('\r' :: acc) cs'
          else if e = 't' then parseStrBody fuel ('\t' :: acc) cs'
          else if e = 'u' then
            match cs' with
            | h₁ :: h₂ :: h₃ :: h₄ :: cs'' =>
              match hexVal h₁, hexVal h₂, hexVal h₃, hexVal h₄ with
              | some a, some b, some c', some d =>
                parseStrBody fuel (Char.ofNat (((a * 16 + b) * 16 + c') * 16 + d) :: acc) cs''
              | _, _, _, _ => .err
            | _ => .eof
          else .err
      else if c.toNat < 32 then .err
      else parseStrBody fuel (c :: acc) cs

mutual

/-- One JSON value at the head of the input (leading whitespace already
consumed), in the style of `serde_json`'s recursive-descent reader:
keyword literals, strings, arrays, objects and numbers; anything else is
a syntax error, and running out of input is an end-of-input condition. -/
def parseVal (fuel : Nat) (s : List Char) : PRes Json :=
  match fuel with
  | 0 => .err
  | fuel + 1 =>
    match s with
    | [] => .eof
    | c :: cs =>
      if c = 'n' then expectLit ['u', 'l', 'l'] .null cs
      else if c = 't' then expectLit ['r', 'u', 'e'] (.bool true) cs
      else if c = 'f' then expectLit ['a', 'l', 's', 'e'] (.bool false) cs
      else if c = '"' then
        match parseStrBody (cs.length + 1) [] cs with
        | .ok str rest => .ok (.str str) rest
        | .eof => .eof
        | .err => .err
      else if c = '[' then
        match skipWs cs with
        | ']' :: rest => .ok (.arr []) rest
        | s1 => parseArrItems fuel s1 []
      else if c = '{' then
        match skipWs cs with
        | '}' :: rest => .ok (.obj []) rest
        | s1 => parseObjItems fuel s1 []
      else if c = '-' ∨ c.isDigit then parseNum (c :: cs)
      else .err

/-- Comma-separated array elements up to the closing bracket. -/
def parseArrItems (fuel : Nat) (s : List Char) (acc : List Json) : PRes Json :=
  match fuel with
  | 0 => .err
  | fuel + 1 =>
    match parseVal fuel s with
    | .ok v rest =>
      match skipWs rest with
      | ',' :: r2 => parseArrItems fuel (skipWs r2) (v :: acc)
      | ']' :: r2 => .ok (.arr (v :: acc).reverse) r2
      | [] => .eof
      | _ => .err
    | .eof => .eof
    | .err => .err

/-- Comma-separated `"key": value` members up to the closing brace; a
repeated key replaces the earlier binding, as in `serde_json`'s map. -/
def parseObjItems (fuel : Nat) (s : List Char) (acc : List (String × Json)) : PRes Json :=
  match fuel with
  | 0 => .err
  | fuel + 1 =>
    match s with
    | [] => .eof
    | c :: cs =>
      if c = '"' then
        match parseStrBody (cs.length + 1) [] cs with
        | .ok key r1 =>
          match skipWs r1 with
          | ':' :: r2 =>
            match parseVal fuel (skipWs r2) with
            | .ok v r3 =>
              match skipWs r3 with
              | ',' :: r4 => parseObjItems fuel (skipWs r4) (insertKey acc key v)
              | '}' :: r4 => .ok (.obj (insertKey acc key v)) r4
              | [] => .eof
              | _ => .err
            | .eof => .eof
            | .err => .err
          | [] => .eof
          | _ => .err
        | .eof => .eof
        | .err => .err
      else .err

end

/-- Outcome of `serde_json::from_slice` on a whole buffer: a parsed
document, an end-of-input error (`Error::is_eof`), or any other error. -/
inductive ParseOut where
  | ok (v : Json)
  | eofErr
  | synErr

/-- Model of `serde_json::from_slice::<Value>`: parse one value from the
buffer; the document is complete only if nothing but whitespace follows,
any other trailing byte being a (non-eof) trailing-characters error. -/
def fromSlice (s : List Char) : ParseOut :=
  match parseVal (2 * s.length + 4) (skipWs s) with
  | .ok v rest => if (skipWs rest).isEmpty then .ok v else .synErr
  | .eof => .eofErr
  | .err => .synErr

/-- Result of one `Decoder::decode` call: no frame yet (with the retained
buffer), a decoded frame (with the buffer that remains after it), or an
I/O error. -/
inductive DecodeRes where
  | needMore (buf : List Char)
  | frame (v : Json) (buf : List Char)
  | ioErr

/-- `JsonCodec::decode` from `client/src/transports/codec.rs`: an empty
buffer needs more input; otherwise the whole buffer is handed to
`serde_json::from_slice` — on success the buffer is cleared and the value
returned, an eof error needs more input leaving the buffer unchanged, and
any other parse error becomes an I/O error. -/
def JsonCodec.decode (src : List Char) : DecodeRes :=
  if src.isEmpty then .needMore src
  else
    match fromSlice src with
    | .ok v => .frame v []
    | .eofErr => .needMore src
    | .synErr => .ioErr

theorem hasKey_false_lookup_none {α : Type} {l : List (String × α)} {key : String}
    (h : hasKey l key = false) : lookupKey l key = none := by
  rcases hL : lookupKey l key with _ | v
  · rfl
  · simp [hasKey, hL] at h

theorem idStep_eq (l : List (String × Json)) :
    (if hasKey l "id" then
      match lookupKey l "id" with
      | some .null => removeKey l "id"
      | _ => l
    else l)
    = (match lookupKey l "id" with
      | some .null => removeKey l "id"
      | _ => l) := by
  rcases hL : lookupKey l "id" with _ | w
  · simp [hasKey, hL]
  · cases w <;> simp [hasKey, hL]

theorem resultStep_eq (l : List (String × Json)) :
    (if hasKey l "result" then removeKey l "error" else l)
    = (if hasKey l "result" && hasKey l "error" then removeKey l "error" else l) := by
  by_cases hr : hasKey l "result"
  · by_cases he : hasKey l "error"
    · simp [hr, he]
    · simp only [Bool.not_eq_true] at he
      simp [hr, he, removeKey_lookup_none (hasKey_false_lookup_none he)]
  · simp only [Bool.not_eq_true] at hr
    simp [hr]

/-- C4: every outbound frame whose `method` field equals the literal string
`"update"` is dropped by `Sender::send`: success is returned, nothing is
written, and the outbound state (the list of frames written so far) is
unchanged. -/
theorem sender_drops_update_frames (written : List Json) (msg : Json)
    (h : jsonIdx msg "method" = Json.str "update") :
    Sender.send written msg = some written := by
  simp [Sender.send, h]

/-- Witness for C4 at a concrete update frame. -/
theorem sender_drops_update_frames_witness :
    Sender.send [] (Json.obj [("method", Json.str "update"), ("id", Json.int 1)]) = some [] :=
  sender_drops_update_frames [] (Json.obj [("method", Json.str "update"), ("id", Json.int 1)]) rfl

/-- C5: an inbound object frame that already carries `jsonrpc: "2.0"`, does
not carry `result` and `error` simultaneously, and has no null `id`, passes
through `Receiver::receive` completely unchanged (hence byte-identical up
to key order). -/
theorem receiver_idempotent_on_clean_frames (fields : List (String × Json))
    (hj : lookupKey fields "jsonrpc" = some (Json.str "2.0"))
    (hre : ¬(hasKey fields "result" = true ∧ hasKey fields "error" = true))
    (hid : lookupKey fields "id" ≠ some Json.null) :
    Receiver.receive (Json.obj fields) = some (Json.obj fields) := by
  have h1 : insertKey fields "jsonrpc" (Json.str "2.0") = fields := insertKey_lookup_eq hj
  have h2 : (if hasKey fields "result" then removeKey fields "error" else fields) = fields := by
    by_cases hr : hasKey fields "result" = true
    · have he : hasKey fields "error" = false := by
        by_cases h : hasKey fields "error" = true
        · exact absurd ⟨hr, h⟩ hre
        · simpa using h
      simp [hr, removeKey_lookup_none (hasKey_false_lookup_none he)]
    · simp only [Bool.not_eq_true] at hr
      simp [hr]
  have h3 : (match lookupKey fields "id" with
      | some .null => removeKey fields "id"
      | _ => fields) = fields := by
    rcases hL : lookupKey fields "id" with _ | w
    · rfl
    · cases w <;> first | (exact absurd hL hid) | rfl
  simp only [Receiver.receive, h1, h2, idStep_eq, h3, ite_self]

/-- Witness for C5 at a concrete clean frame. -/
theorem receiver_idempotent_on_clean_frames_witness :
    Receiver.receive
        (Json.obj [("jsonrpc", Json.str "2.0"), ("result", Json.int 1), ("id", Json.int 7)])
      = some (Json.obj [("jsonrpc", Json.str "2.0"), ("result", Json.int 1), ("id", Json.int 7)]) :=
  receiver_idempotent_on_clean_frames
    [("jsonrpc", Json.str "2.0"), ("result", Json.int 1), ("id", Json.int 7)]
    rfl (by decide) (fun h => nomatch h)

/-- C6 counterexample: an inbound frame that is a complete, valid JSON
document but not an object — here the array `[]` — makes
`Receiver::receive` hit `as_object().unwrap()` and panic (modelled by
`none`) instead of passing the frame through. -/
theorem receiver_panics_on_non_object : Receiver.receive (Json.arr []) = none := rfl

/-- C6 (amended): every inbound frame that is a JSON object is returned
without failure and with exactly the three enumerated rewrites of the
spec's inbound table applied; non-object frames panic (see the
counterexample). -/
theorem receiver_applies_exactly_spec_rewrites (fields : List (String × Json)) :
    Receiver.receive (Json.obj fields) = some (Json.obj (specInboundRewrite fields)) := by
  simp only [Receiver.receive, specInboundRewrite, resultStep_eq, idStep_eq]

/-- C1 counterexample: the buffer `[][]` has the complete JSON document
`[]` as a prefix, yet `JsonCodec::decode` returns an I/O error (the
whole-buffer parse reports trailing characters) instead of returning the
first document and retaining the second. -/
theorem decode_errors_on_concatenated_documents :
    JsonCodec.decode ['[', ']', '[', ']'] = DecodeRes.ioErr ∧
    JsonCodec.decode ['[', ']', '[', ']'] ≠ DecodeRes.frame (Json.arr []) ['[', ']'] :=
  ⟨rfl, fun h => nomatch h⟩

/-- C1 (amended): `JsonCodec::decode` returns a parsed document exactly
when the entire buffer is one complete JSON document (up to whitespace),
and then it empties the whole buffer; it never retains a suffix. -/
theorem decode_consumes_whole_buffer :
    (∀ (src : List Char) (v : Json),
        fromSlice src = ParseOut.ok v → JsonCodec.decode src = DecodeRes.frame v []) ∧
    (∀ (src buf : List Char) (v : Json),
        JsonCodec.decode src = DecodeRes.frame v buf → buf = []) := by
  constructor
  · intro src v h
    have hne : ¬ src.isEmpty = true := by
      intro he
      rw [List.isEmpty_iff] at he
      subst he
      exact nomatch h
    simp [JsonCodec.decode, hne, h]
  · intro src buf v h
    unfold JsonCodec.decode at h
    by_cases he : src.isEmpty = true
    · rw [if_pos he] at h
      exact nomatch h
    · rw [if_neg he] at h
      rcases hf : fromSlice src with w | _ | _ <;> rw [hf] at h
      · cases h
        rfl
      · exact nomatch h
      · exact nomatch h

/-- Witness for C1 (amended) at the one-document buffer `[]`. -/
theorem decode_consumes_whole_buffer_witness :
    JsonCodec.decode ['[', ']'] = DecodeRes.frame (Json.arr []) [] :=
  decode_consumes_whole_buffer.1 ['[', ']'] (Json.arr []) rfl

/-- C2: evaluating the generated `to_map` at a record with one declared
optional field `name: Option<String>` holding `None` shows that the
produced map does contain the key `name`, bound to the empty-set JSON
`[]` — `to_ovsdb_json` returns `Some([])` for `None`, so the insertion
guard never skips it, contradicting the claim (and the macro's own
`Skip None values` comment). -/
theorem to_map_inserts_none_fields :
    to_map [("name", ColTy.opt ColTy.str)]
        { fields := [RVal.opt none], ruuid := none, rversion := none }
      = [("name", Json.arr [])] ∧
    lookupKey (to_map [("name", ColTy.opt ColTy.str)]
        { fields := [RVal.opt none], ruuid := none, rversion := none }) "name"
      = some (Json.arr []) :=
  ⟨rfl, rfl⟩

/-- C3: the record with one declared optional field `name: Option<String>`
holding `None` does not round-trip: `to_map` emits `name: []`, and
`from_map` then fails to decode `[]` (an empty set) at `Option<String>`,
returning an error instead of the original record. -/
theorem round_trip_fails_on_none_field :
    from_map [("name", ColTy.opt ColTy.str)]
        (to_map [("name", ColTy.opt ColTy.str)]
          { fields := [RVal.opt none], ruuid := none, rversion := none })
      = Except.error "Failed to parse field name" := rfl

/-- C8: encoding the one-entry `HashMap` whose value `[1, 2]` (a
`Vec<i64>`) fails atom conversion returns the empty map `Map([])`,
silently dropping the entry instead of reporting an error — `to_ovsdb`
cannot even report one, its return type having no failure case. -/
theorem hashmap_encode_silently_drops_entries :
    to_ovsdb (RVal.kvmap [(RVal.str "k", RVal.seq [RVal.int 1, RVal.int 2])])
      = OvsdbValue.Map [] := rfl

/-- C7: decoding into a sequence type treats every shorthand as its long
form — `[]`, `null`, and `["set", []]` each decode to the empty sequence,
and a bare atom and `["set", [atom]]` each decode to the one-element
sequence of the atom's decoded value. -/
theorem sequence_decode_shorthand (t : ColTy) :
    from_ovsdb_json (ColTy.seq t) (Json.arr []) = some (RVal.seq []) ∧
    from_ovsdb_json (ColTy.seq t) Json.null = some (RVal.seq []) ∧
    from_ovsdb_json (ColTy.seq t) (Json.arr [Json.str "set", Json.arr []]) = some (RVal.seq []) ∧
    (∀ (j : Json) (a : OvsdbAtom) (v : RVal),
      json_to_ovsdb_value j = some (OvsdbValue.Atom a) →
      from_ovsdb t (OvsdbValue.Atom a) = some v →
      from_ovsdb_json (ColTy.seq t) j = some (RVal.seq [v]) ∧
      from_ovsdb_json (ColTy.seq t) (Json.arr [Json.str "set", Json.arr [j]])
        = some (RVal.seq [v])) := by
  refine ⟨?_, ?_, ?_, ?_⟩
  · simp [from_ovsdb_json, json_to_ovsdb_value, tryTagged, from_ovsdb, List.mapM.loop]
  · simp [from_ovsdb_json, json_to_ovsdb_value, from_ovsdb, List.mapM.loop]
  · simp [from_ovsdb_json, json_to_ovsdb_value, tryTagged, atomsOf, from_ovsdb, List.mapM.loop]
  · intro j a v h1 h2
    constructor
    · simp [from_ovsdb_json, h1, from_ovsdb, h2]
    · simp [from_ovsdb_json, json_to_ovsdb_value, tryTagged, atomsOf, h1, from_ovsdb, h2,
        List.mapM.loop]

/-- Witness for C7 at the element type `i64` and the atom `5`. -/
theorem sequence_decode_shorthand_witness :
    from_ovsdb_json (ColTy.seq ColTy.int) (Json.int 5) = some (RVal.seq [RVal.int 5]) ∧
    from_ovsdb_json (ColTy.seq ColTy.int) (Json.arr [Json.str "set", Json.arr [Json.int 5]])
      = some (RVal.seq [RVal.int 5]) :=
  (sequence_decode_shorthand ColTy.int).2.2.2 (Json.int 5) (OvsdbAtom.Integer 5) (RVal.int 5)
    rfl rfl

/-- C9: decoding into `Option<T>` succeeds exactly when decoding into `T`
does, never yields `None`, and in particular fails on `Set([])` at each
optional scalar type, though `Set([])` is exactly what `None` encodes to:
`Option` decoding is not the inverse of `Option` encoding. -/
theorem option_decode_never_none :
    (∀ (t : ColTy) (v : OvsdbValue),
        (from_ovsdb (ColTy.opt t) v).isSome = (from_ovsdb t v).isSome) ∧
    (∀ (t : ColTy) (v : OvsdbValue) (r : RVal),
        from_ovsdb (ColTy.opt t) v = some r → ∃ x, r = RVal.opt (some x)) ∧
    from_ovsdb (ColTy.opt ColTy.str) (OvsdbValue.Set []) = none ∧
    from_ovsdb (ColTy.opt ColTy.int) (OvsdbValue.Set []) = none ∧
    from_ovsdb (ColTy.opt ColTy.bool) (OvsdbValue.Set []) = none ∧
    from_ovsdb (ColTy.opt ColTy.uuid) (OvsdbValue.Set []) = none ∧
    from_ovsdb (ColTy.opt ColTy.str) (to_ovsdb (RVal.opt none)) = none := by
  refine ⟨?_, ?_, rfl, rfl, rfl, rfl, rfl⟩
  · intro t v
    simp [from_ovsdb]
  · intro t v r h
    simp only [from_ovsdb] at h
    rcases hv : from_ovsdb t v with _ | x <;> rw [hv] at h
    · exact nomatch h
    · simp only [Option.map_some'] at h
      cases h
      exact ⟨x, rfl⟩

/-- Witness for C9: applying the no-`None` part at a successfully decoded
concrete value. -/
theorem option_decode_never_none_witness :
    ∃ x, RVal.opt (some (RVal.str "a")) = RVal.opt (some x) :=
  option_decode_never_none.2.1 ColTy.str (OvsdbValue.Atom (OvsdbAtom.String "a"))
    (RVal.opt (some (RVal.str "a"))) rfl

theorem fromMapLoop_error {m : List (String × Json)} {R : RecordTy} {e : String}
    (h : fromMapLoop m R = .error e) :
    ∃ n t j, (n, t) ∈ R ∧ lookupKey m n = some j ∧ from_ovsdb_json t j = none ∧
      e = "Failed to parse field " ++ n := by
  induction R with
  | nil => exact nomatch h
  | cons p R ih =>
    obtain ⟨n, t⟩ := p
    rcases hL : lookupKey m n with _ | j
    · simp only [fromMapLoop, hL] at h
      rcases hr : fromMapLoop m R with e' | vs <;> rw [hr] at h
      · cases h
        obtain ⟨n', t', j', hmem, hL', hD', he'⟩ := ih hr
        exact ⟨n', t', j', List.mem_cons_of_mem _ hmem, hL', hD', he'⟩
      · exact nomatch h
    · simp only [fromMapLoop, hL] at h
      rcases hD : from_ovsdb_json t j with _ | v <;> rw [hD] at h
      · cases h
        exact ⟨n, t, j, List.mem_cons_self _ _, hL, hD, rfl⟩
      · rcases hr : fromMapLoop m R with e' | vs <;> rw [hr] at h
        · cases h
          obtain ⟨n', t', j', hmem, hL', hD', he'⟩ := ih hr
          exact ⟨n', t', j', List.mem_cons_of_mem _ hmem, hL', hD', he'⟩
        · exact nomatch h

theorem fromMapLoop_error_of_bad {m : List (String × Json)} {R : RecordTy}
    {n : String} {t : ColTy} {j : Json}
    (hmem : (n, t) ∈ R) (hL : lookupKey m n = some j) (hD : from_ovsdb_json t j = none) :
    ∃ e, fromMapLoop m R = .error e := by
  induction R with
  | nil => cases hmem
  | cons p R ih =>
    obtain ⟨n', t'⟩ := p
    rcases List.mem_cons.mp hmem with heq | hmem'
    · cases heq
      exact ⟨"Failed to parse field " ++ n, by simp only [fromMapLoop, hL, hD]⟩
    · obtain ⟨e, he⟩ := ih hmem'
      rcases hL' : lookupKey m n' with _ | j'
      · exact ⟨e, by simp only [fromMapLoop, hL', he]⟩
      · rcases hD' : from_ovsdb_json t' j' with _ | v'
        · exact ⟨"Failed to parse field " ++ n', by simp only [fromMapLoop, hL', hD']⟩
        · exact ⟨e, by simp only [fromMapLoop, hL', hD', he]⟩

/-- C10: `from_map` never fails because of a `_uuid` or `_version` entry —
those fields are taken from a present entry only when `extract_uuid`
recognizes it and are silently `None` otherwise — while every error
`from_map` returns comes from a declared field whose present entry fails
to decode, and is the message naming that field; conversely a failing
declared field always makes `from_map` error. -/
theorem from_map_uuid_lenient_fields_strict :
    (∀ (R : RecordTy) (m : List (String × Json)) (r : RecordVal),
        from_map R m = .ok r →
        r.ruuid = (lookupKey m "_uuid").bind extract_uuid ∧
        r.rversion = (lookupKey m "_version").bind extract_uuid) ∧
    (∀ (R : RecordTy) (m : List (String × Json)) (e : String),
        from_map R m = .error e →
        ∃ n t j, (n, t) ∈ R ∧ lookupKey m n = some j ∧ from_ovsdb_json t j = none ∧
          e = "Failed to parse field " ++ n) ∧
    (∀ (R : RecordTy) (m : List (String × Json)) (n : String) (t : ColTy) (j : Json),
        (n, t) ∈ R → lookupKey m n = some j → from_ovsdb_json t j = none →
        ∃ e, from_map R m = .error e) := by
  refine ⟨?_, ?_, ?_⟩
  · intro R m r h
    unfold from_map at h
    rcases hr : fromMapLoop m R with e' | vs <;> rw [hr] at h
    · exact nomatch h
    · cases h
      exact ⟨rfl, rfl⟩
  · intro R m e h
    unfold from_map at h
    rcases hr : fromMapLoop m R with e' | vs <;> rw [hr] at h
    · cases h
      exact fromMapLoop_error hr
    · exact nomatch h
  · intro R m n t j hmem hL hD
    obtain ⟨e, he⟩ := fromMapLoop_error_of_bad hmem hL hD
    exact ⟨e, by simp only [from_map, he]⟩

/-- Witness for C10: a map whose `_uuid` entry is malformed and whose
declared field `name` holds a wrongly-typed value — `from_map` errors
naming `name`, not `_uuid`. -/
theorem from_map_uuid_lenient_fields_strict_witness :
    from_map [("name", ColTy.opt ColTy.str)]
        [("_uuid", Json.str "junk"), ("name", Json.int 3)]
      = Except.error "Failed to parse field name" ∧
    ∃ n t j, (n, t) ∈ ([("name", ColTy.opt ColTy.str)] : RecordTy) ∧
      lookupKey [("_uuid", Json.str "junk"), ("name", Json.int 3)] n = some j ∧
      from_ovsdb_json t j = none ∧
      "Failed to parse field name" = "Failed to parse field " ++ n :=
  ⟨rfl, from_map_uuid_lenient_fields_strict.2.1
    [("name", ColTy.opt ColTy.str)] [("_uuid", Json.str "junk"), ("name", Json.int 3)]
    "Failed to parse field name" rfl⟩
